import Mathlib

/-!
Shallow embedding of the dataup-sdk evaluation core:
shape normalization (`dataup/cvat/utils.py`), the CVAT traversal helpers
(`dataup/cvat/client.py`), the evaluation runner
(`dataup/evaluation/runner.py`) and cursor pagination
(`dataup/_pagination.py`, `dataup/models/common.py`).

Python numbers are modelled as `ℚ` (shape coordinates / scores) and `ℤ`
(ids, frame indices).  Python's `int()` truncation toward zero is `pyInt`.
Code that can raise is modelled in `Except Unit`.
-/

namespace Dataup

/-- Python's `int()` on a rational: truncation toward zero
(floor for nonnegative values, ceiling for negative ones). -/
def pyInt (q : ℚ) : ℤ :=
  if 0 ≤ q then ⌊q⌋ else ⌈q⌉

/-- `ShapeType` from `dataup/cvat/models/enums.py` (a str-Enum). -/
inductive ShapeType
  | rectangle | polygon | polyline | points | ellipse | cuboid | skeleton | mask
deriving DecidableEq

/-- The wire string of a `ShapeType` member (its `.value` in Python). -/
def ShapeType.value : ShapeType → String
  | .rectangle => "rectangle"
  | .polygon => "polygon"
  | .polyline => "polyline"
  | .points => "points"
  | .ellipse => "ellipse"
  | .cuboid => "cuboid"
  | .skeleton => "skeleton"
  | .mask => "mask"

/-- The Python enum call `ShapeType(s)`: `some` member for a recognized
value string, `none` models the `ValueError` raised otherwise. -/
def ShapeType.ofString (s : String) : Option ShapeType :=
  if s = "rectangle" then some .rectangle
  else if s = "polygon" then some .polygon
  else if s = "polyline" then some .polyline
  else if s = "points" then some .points
  else if s = "ellipse" then some .ellipse
  else if s = "cuboid" then some .cuboid
  else if s = "skeleton" then some .skeleton
  else if s = "mask" then some .mask
  else none

/-- Modelled from the spec: `dataup_models.geom.BoundingBox` (the package
`dataup_models` is an external dependency not present in the repository);
the box record with integer position and extent. -/
structure BoundingBox where
  x : ℤ
  y : ℤ
  width : ℤ
  height : ℤ
deriving DecidableEq

/-- Modelled from the spec: `dataup_models.geom.Polygon`, an ordered list
of integer points. -/
structure Polygon where
  points : List (ℤ × ℤ)
deriving DecidableEq

/-- Modelled from the spec: `Polygon.to_bbox()`, the polygon's axis-aligned
extent (`none` on an empty point list, which the normalizer never builds). -/
def Polygon.to_bbox (p : Polygon) : Option BoundingBox :=
  match p.points with
  | [] => none
  | q :: rest =>
    let xmin := rest.foldl (fun m r => min m r.1) q.1
    let xmax := rest.foldl (fun m r => max m r.1) q.1
    let ymin := rest.foldl (fun m r => min m r.2) q.2
    let ymax := rest.foldl (fun m r => max m r.2) q.2
    some ⟨xmin, ymin, xmax - xmin, ymax - ymin⟩

/-- Modelled from the spec: `dataup_models.labels.LabelAttribute`. -/
structure LabelAttribute where
  key : String
  value : String
deriving DecidableEq

/-- Modelled from the spec: `dataup_models.labels.Label`, the canonical
label record exchanged with the evaluation service. -/
structure Label where
  label : String
  score : ℚ
  bbox : BoundingBox
  polygon : Option Polygon
  attributes : List LabelAttribute
deriving DecidableEq

/-- `CVATLabelAttribute` from `dataup/cvat/models/tasks.py` (the fields the
normalizer reads). -/
structure CVATLabelAttribute where
  id : ℤ
  name : String
deriving DecidableEq

/-- `CVATLabel` from `dataup/cvat/models/tasks.py` (the fields the
normalizer reads). -/
structure CVATLabel where
  id : ℤ
  name : String
  attributes : List CVATLabelAttribute
deriving DecidableEq

/-- One attribute entry of a shape dict (`attr.get("spec_id")`,
`attr.get("value", "")`). -/
structure AttrDict where
  spec_id : Option ℤ
  value : String
deriving DecidableEq

/-- The dict form of a shape as consumed by `shape_to_label` (the client
always passes `shape.model_dump()`, so `type` is a wire string here). -/
structure RawShape where
  type : String
  points : List ℚ
  attributes : List AttrDict
  label_id : Option ℤ
deriving DecidableEq

/-- The `[(int(points[i]), int(points[i+1])) for i in range(0, len, 2)]`
comprehension: pairs consecutive coordinates, erroring (IndexError) on an
odd-length list. -/
def pairUpE : List ℚ → Except Unit (List (ℤ × ℤ))
  | [] => .ok []
  | [_] => .error ()
  | x :: y :: rest => (pairUpE rest).map (fun l => (pyInt x, pyInt y) :: l)

/-- `[points[i] for i in range(0, len, 2)]`: the even-index coordinates. -/
def evens : List ℚ → List ℚ
  | [] => []
  | [x] => [x]
  | x :: _ :: rest => x :: evens rest

/-- `[points[i+1] for i in range(0, len, 2)]`: odd-index coordinates,
erroring (IndexError) on an odd-length list. -/
def oddsE : List ℚ → Except Unit (List ℚ)
  | [] => .ok []
  | [_] => .error ()
  | _ :: y :: rest => (oddsE rest).map (fun l => y :: l)

/-- `[points[i+1] for i in range(0, len, 2) if i + 1 < len]`: odd-index
coordinates with the bound check, never erroring. -/
def oddsSafe : List ℚ → List ℚ
  | [] => []
  | [_] => []
  | _ :: y :: rest => y :: oddsSafe rest

/-- Python `min(l)` on a list (`none` on the empty list). -/
def listMin (l : List ℚ) : Option ℚ :=
  match l with
  | [] => none
  | x :: rest => some (rest.foldl min x)

/-- Python `max(l)` on a list (`none` on the empty list). -/
def listMax (l : List ℚ) : Option ℚ :=
  match l with
  | [] => none
  | x :: rest => some (rest.foldl max x)

/-- The extent box shared by the `points` and other-kind branches of
`shape_to_label`: min/max on both axes, with width/height floored to 1
exactly when the respective extent is degenerate (`max` not `>` `min`). -/
def extentBox (xs ys : List ℚ) : Option BoundingBox :=
  match listMin xs, listMax xs, listMin ys, listMax ys with
  | some xmin, some xmax, some ymin, some ymax =>
    some ⟨pyInt xmin, pyInt ymin,
          if xmin < xmax then pyInt (xmax - xmin) else 1,
          if ymin < ymax then pyInt (ymax - ymin) else 1⟩
  | _, _, _, _ => none

/-- The geometry section of `shape_to_label` (`dataup/cvat/utils.py`
lines 65-152): per shape kind, the derived optional bbox and polygon;
`.error` models the IndexError raised by the coordinate-pairing
comprehensions on odd-length input. -/
def geometry : ShapeType → List ℚ → Except Unit (Option BoundingBox × Option Polygon)
  | .rectangle, x1 :: y1 :: x2 :: y2 :: _ =>
    .ok (some ⟨pyInt (min x1 x2), pyInt (min y1 y2),
               pyInt (max x1 x2 - min x1 x2), pyInt (max y1 y2 - min y1 y2)⟩, none)
  | .rectangle, _ => .ok (none, none)
  | .polygon, pts =>
    if 6 ≤ pts.length then
      match pairUpE pts with
      | .error e => .error e
      | .ok pp => .ok (Polygon.to_bbox ⟨pp⟩, some ⟨pp⟩)
    else .ok (none, none)
  | .polyline, pts =>
    if 4 ≤ pts.length then
      match pairUpE pts with
      | .error e => .error e
      | .ok pp => .ok (Polygon.to_bbox ⟨pp⟩, some ⟨pp⟩)
    else .ok (none, none)
  | .points, pts =>
    if 2 ≤ pts.length then
      match oddsE pts with
      | .error e => .error e
      | .ok ys => .ok (extentBox (evens pts) ys, none)
    else .ok (none, none)
  | .ellipse, pts =>
    match pts with
    | cx :: cy :: rx :: ry :: rest =>
      if rest.isEmpty then
        .ok (some ⟨pyInt (cx - rx), pyInt (cy - ry), pyInt (2 * rx), pyInt (2 * ry)⟩, none)
      else
        .ok (some ⟨pyInt (min cx rx), pyInt (min cy ry),
                   pyInt (max cx rx - min cx rx), pyInt (max cy ry - min cy ry)⟩, none)
    | _ => .ok (none, none)
  | .cuboid, pts =>
    if 4 ≤ pts.length then .ok (extentBox (evens pts) (oddsSafe pts), none)
    else .ok (none, none)
  | .skeleton, pts =>
    if 4 ≤ pts.length then .ok (extentBox (evens pts) (oddsSafe pts), none)
    else .ok (none, none)
  | .mask, pts =>
    if 4 ≤ pts.length then .ok (extentBox (evens pts) (oddsSafe pts), none)
    else .ok (none, none)

/-- Label-name resolution of `shape_to_label`: default
`f"label_{label_id}"`, overridden by the first matching CVAT label. -/
def resolveLabelName (label_id : Option ℤ) (cvat_labels : List CVATLabel) : String :=
  match label_id with
  | none => "label_None"
  | some i =>
    match cvat_labels.find? (fun c => decide (c.id = i)) with
    | some c => c.name
    | none => "label_" ++ toString i

/-- The `label_attr_map` of `shape_to_label`: the attribute list of the
first CVAT label matching `label_id` (empty otherwise). -/
def labelAttrs (label_id : Option ℤ) (cvat_labels : List CVATLabel) : List CVATLabelAttribute :=
  match label_id with
  | none => []
  | some i =>
    match cvat_labels.find? (fun c => decide (c.id = i)) with
    | some c => c.attributes
    | none => []

/-- Attribute resolution of `shape_to_label`: empty values are dropped,
keys resolve through the label's attribute map (dict semantics: the last
entry for a spec id wins) and fall back to `str(spec_id)`. -/
def resolveAttrs (attrs : List AttrDict) (lattrs : List CVATLabelAttribute) :
    List LabelAttribute :=
  attrs.filterMap (fun a =>
    if a.value = "" then none
    else
      some ⟨(match a.spec_id with
             | some sid =>
               match lattrs.reverse.find? (fun la => decide (la.id = sid)) with
               | some la => la.name
               | none => toString sid
             | none => "None"),
            a.value⟩)

/-- `shape_to_label` from `dataup/cvat/utils.py` on the dict form of a
shape: `.error ()` models a raised exception (unknown type string, or
IndexError inside a geometry branch); otherwise the canonical label with
the fallback unit box when no geometry branch produced one. -/
def shape_to_label (shape : RawShape) (cvat_labels : List CVATLabel) (score : ℚ) :
    Except Unit Label :=
  match ShapeType.ofString shape.type with
  | none => .error ()
  | some t =>
    match geometry t shape.points with
    | .error e => .error e
    | .ok bp =>
      .ok { label := resolveLabelName shape.label_id cvat_labels
            score := score
            bbox := bp.1.getD ⟨0, 0, 1, 1⟩
            polygon := bp.2
            attributes := resolveAttrs shape.attributes (labelAttrs shape.label_id cvat_labels) }

/-- `Shape` from `dataup/cvat/models/annotations.py` (the fields the core
reads; `attributes` entries always carry a concrete `spec_id`). -/
structure AttributeValue where
  spec_id : ℤ
  value : String
deriving DecidableEq

/-- `Shape` from `dataup/cvat/models/annotations.py`. -/
structure Shape where
  type : ShapeType
  frame : ℤ
  label_id : ℤ
  points : List ℚ
  attributes : List AttributeValue
deriving DecidableEq

/-- `shape.model_dump()`: the dict form handed to `shape_to_label` (the
enum round-trips through `ShapeType(...)` via its value string). -/
def Shape.toRaw (s : Shape) : RawShape :=
  { type := s.type.value
    points := s.points
    attributes := s.attributes.map (fun a => ⟨some a.spec_id, a.value⟩)
    label_id := some s.label_id }

/-- `FrameLabels` from `dataup/cvat/models/annotations.py`. -/
structure FrameLabels where
  frame_id : ℤ
  job_id : ℤ
  labels : List Label
deriving DecidableEq

/-- `JobSummary` from `dataup/cvat/models/jobs.py` (fields the runner
reads). -/
structure JobSummary where
  id : ℤ
  task_id : ℤ
  start_frame : ℤ
  stop_frame : ℤ
deriving DecidableEq

/-- `Job` from `dataup/cvat/models/jobs.py` (fields the traversal reads). -/
structure Job where
  id : ℤ
  start_frame : ℤ
  stop_frame : ℤ
deriving DecidableEq

/-- `DataMetaInfo` from `dataup/cvat/models/frames.py` (fields the
traversal reads; `deleted_frames` is a Python list). -/
structure DataMetaInfo where
  start_frame : ℤ
  stop_frame : ℤ
  deleted_frames : List ℤ
deriving DecidableEq

/-- `FrameImage` from `dataup/cvat/models/frames.py` (`get_frame` sets
`frame_id` to the requested index; image bytes abstracted to a `ℕ`). -/
structure FrameImage where
  frame_id : ℤ
  data : ℕ
deriving DecidableEq

/-- The CVAT server plus inference provider as one deterministic
environment: responses of `jobs.list` (all pages concatenated),
`jobs.get`, `jobs.get_data_meta`, `GET /jobs/{id}/annotations`,
`tasks.get_task_labels`, `jobs.get_frame`, the decoded PIL image size,
and `provider.predict` per (job, frame). -/
structure CVATEnv where
  jobSummaries : List JobSummary
  getJob : ℤ → Job
  getMeta : ℤ → DataMetaInfo
  shapes : ℤ → List Shape
  taskLabels : List CVATLabel
  frameData : ℤ → ℤ → ℕ
  imageW : ℤ → ℤ → ℤ
  imageH : ℤ → ℤ → ℤ
  predict : ℤ → ℤ → List Label

/-- Python `range(a, b + 1)` over `ℤ`. -/
def intRange (a b : ℤ) : List ℤ :=
  (List.range (b + 1 - a).toNat).map (fun k : ℕ => a + (k : ℤ))

/-- `JobsResource.iter_frames` (`dataup/cvat/client.py` lines 400-420):
frames `start_frame..stop_frame` of the job, skipping ids found in the
meta's `deleted_frames`, each fetched via `get_frame`. -/
def iter_frames (env : CVATEnv) (job_id : ℤ) : List FrameImage :=
  let job := env.getJob job_id
  let meta := env.getMeta job_id
  ((intRange job.start_frame job.stop_frame).filter
      (fun fid => decide (fid ∉ meta.deleted_frames))).map
    (fun fid => { frame_id := fid, data := env.frameData job_id fid })

/-- The distinct frame ids of a shape list, ascending — the keys of the
`frames_shapes` dict after `sorted(...)`. -/
def sortedFrameIds (shapes : List Shape) : List ℤ :=
  ((shapes.map (fun s => s.frame)).dedup).insertionSort (· ≤ ·)

/-- `JobsResource.get_annotations` (`dataup/cvat/client.py` lines
422-462): group the job's shapes by frame, sort by frame id, convert each
shape through `shape_to_label`, skipping (try/except) shapes whose
conversion raises. -/
def get_annotations (env : CVATEnv) (job_id : ℤ) (cvat_labels : List CVATLabel) :
    List FrameLabels :=
  let shapes := env.shapes job_id
  (sortedFrameIds shapes).map (fun fid =>
    { frame_id := fid
      job_id := job_id
      labels := (shapes.filter (fun s => decide (s.frame = fid))).filterMap
        (fun s => (shape_to_label s.toRaw cvat_labels 1).toOption) })

/-- `JobsResource.iter_jobs_with_annotations`: task labels fetched once,
then each job paired with its converted annotations (the page loop is
transparent: `jobSummaries` is the concatenation of all pages). -/
def iterJobsWithAnn (env : CVATEnv) : List (JobSummary × List FrameLabels) :=
  env.jobSummaries.map (fun s => (s, get_annotations env s.id env.taskLabels))

/-- The runner's job filter: `job_ids is None or id in set(job_ids)`. -/
def inScope (jobFilter : Option (List ℤ)) (id : ℤ) : Bool :=
  match jobFilter with
  | none => true
  | some ids => decide (id ∈ ids)

/-- `FrameData` from `dataup/models/evaluations.py` (fields the runner
fills). -/
structure FrameData where
  job_id : ℤ
  frame_id : ℤ
  ground_truth : List Label
  predictions : List Label
  image_width : ℤ
  image_height : ℤ
deriving DecidableEq

/-- First pass of `EvaluationRunner.run_and_submit` (`runner.py` lines
110-120): sum of `stop_frame - start_frame + 1 - len(deleted_frames)`
over the jobs surviving the filter. -/
def firstPassTotal (env : CVATEnv) (jobFilter : Option (List ℤ)) : ℤ :=
  (iterJobsWithAnn env).foldl
    (fun acc p =>
      if inScope jobFilter p.1.id then
        acc + ((env.getJob p.1.id).stop_frame - (env.getJob p.1.id).start_frame + 1
               - ((env.getMeta p.1.id).deleted_frames.length : ℤ))
      else acc)
    0

/-- The `frame_labels_lookup` dict of the runner: frame id to labels,
later entries overwriting earlier ones, default `[]`. -/
def frameLabelsLookup (fls : List FrameLabels) (fid : ℤ) : List Label :=
  match fls.reverse.find? (fun fl => decide (fl.frame_id = fid)) with
  | some fl => fl.labels
  | none => []

/-- The frame records one job contributes in the runner's second pass. -/
def jobRecords (env : CVATEnv) (s : JobSummary) (fls : List FrameLabels) : List FrameData :=
  (iter_frames env s.id).map (fun fi =>
    { job_id := s.id
      frame_id := fi.frame_id
      ground_truth := frameLabelsLookup fls fi.frame_id
      predictions := env.predict s.id fi.frame_id
      image_width := env.imageW s.id fi.frame_id
      image_height := env.imageH s.id fi.frame_id })

/-- All frame records appended (in order) during the second pass of
`run_and_submit` (`runner.py` lines 139-180). -/
def secondPassRecords (env : CVATEnv) (jobFilter : Option (List ℤ)) : List FrameData :=
  (iterJobsWithAnn env).foldl
    (fun acc p => if inScope jobFilter p.1.id then acc ++ jobRecords env p.1 p.2 else acc)
    []

/-- The batching loop of the second pass (`runner.py` lines 176-188):
append each record, flush exactly when the buffer reaches `batch_size`;
returns (flushed batches, remaining buffer). -/
def batchLoop (N : ℤ) (l : List FrameData) (batch : List FrameData) :
    List (List FrameData) × List FrameData :=
  match l with
  | [] => ([], batch)
  | fd :: rest =>
    let b := batch ++ [fd]
    if N ≤ (b.length : ℤ) then
      let r := batchLoop N rest []
      (b :: r.1, r.2)
    else batchLoop N rest b

/-- The ingestion calls `run_and_submit` issues: the full batches flushed
inside the loop plus the non-empty remainder (`runner.py` lines 190-195). -/
def ingestCalls (env : CVATEnv) (jobFilter : Option (List ℤ)) (N : ℤ) :
    List (List FrameData) :=
  let r := batchLoop N (secondPassRecords env jobFilter) []
  r.1 ++ (if r.2.isEmpty then [] else [r.2])

/-- The two caller-supplied transports of a run. -/
inductive ClientKind
  | dataup | cvat
deriving DecidableEq

/-- The external effects `run_and_submit` can perform against the DataUp
service and the transports (`closeClient` would be a `close()` on one of
the two caller-supplied clients, as `DataUpClient.close` /
`CVATClient.close` do). -/
inductive RunnerEffect
  | createEval (total : ℤ)
  | ingest (frames : List FrameData)
  | finalizeEval
  | getEval
  | closeClient (k : ClientKind)
deriving DecidableEq

/-- Effect trace of `EvaluationRunner.run_and_submit` on the no-error
path: create the evaluation with the first-pass total, ingest the
batches, finalize once, fetch the evaluation.  The method has no
`finally` block and its `except` clause only re-raises, so no `close`
effect occurs on either path. -/
def run_and_submit (env : CVATEnv) (jobFilter : Option (List ℤ)) (N : ℤ) :
    List RunnerEffect :=
  RunnerEffect.createEval (firstPassTotal env jobFilter)
    :: ((ingestCalls env jobFilter N).map RunnerEffect.ingest
        ++ [RunnerEffect.finalizeEval, RunnerEffect.getEval])

/-- Recognizer for close effects. -/
def isClose : RunnerEffect → Bool
  | .closeClient _ => true
  | _ => false

/-- Recognizer for the finalize effect. -/
def isFinalize : RunnerEffect → Bool
  | .finalizeEval => true
  | _ => false

/-- `CursorPage` from `dataup/models/common.py`. -/
structure CursorPage (α : Type) where
  items : List α
  total : Option ℤ
  size : Option ℤ
  cursor : Option String
  next_page : Option String

/-- `CursorPage.has_next`: `cursor is not None or next_page is not None`. -/
def CursorPage.has_next {α : Type} (p : CursorPage α) : Bool :=
  p.cursor.isSome || p.next_page.isSome

/-- Python `a or b` on two optional strings (`None` and `""` are falsy). -/
def pyOrStr (a b : Option String) : Option String :=
  match a with
  | some s => if s = "" then b else some s
  | none => b

/-- `paginate` from `dataup/_pagination.py`, its unbounded `while True`
loop supplied with fuel: fetch, yield the page's items, stop when
`has_next()` is false, else continue from `cursor or next_page`. -/
def paginate {α : Type} (fetch : Option String → CursorPage α) :
    ℕ → Option String → List α
  | 0, _ => []
  | fuel + 1, c =>
    let page := fetch c
    page.items ++
      (if page.has_next then paginate fetch fuel (pyOrStr page.cursor page.next_page) else [])

/-- The cursor reached after `n` iterations of `paginate`'s loop starting
from cursor `c`. -/
def chainFrom {α : Type} (fetch : Option String → CursorPage α) (c : Option String) :
    ℕ → Option String
  | 0 => c
  | n + 1 => chainFrom fetch (pyOrStr (fetch c).cursor (fetch c).next_page) n

/-! Helper lemmas. -/

theorem pyInt_eq_zero {q : ℚ} (h0 : 0 ≤ q) (h1 : q < 1) : pyInt q = 0 := by
  unfold pyInt
  rw [if_pos h0]
  exact Int.floor_eq_zero_iff.mpr ⟨h0, h1⟩

theorem pyInt_intCast (n : ℤ) : pyInt (n : ℚ) = n := by
  unfold pyInt
  split <;> simp

theorem ofString_value (t : ShapeType) : ShapeType.ofString t.value = some t := by
  cases t <;> rfl

theorem pairUpE_ok : ∀ (pts : List ℚ), pts.length % 2 = 0 →
    ∃ r, pairUpE pts = Except.ok r
  | [], _ => ⟨[], rfl⟩
  | [x], h => by simp at h
  | x :: y :: rest, h => by
    obtain ⟨r, hr⟩ := pairUpE_ok rest (by simp at h; omega)
    exact ⟨(pyInt x, pyInt y) :: r, by simp [pairUpE, hr, Except.map]⟩

theorem oddsE_ok : ∀ (pts : List ℚ), pts.length % 2 = 0 →
    ∃ r, oddsE pts = Except.ok r
  | [], _ => ⟨[], rfl⟩
  | [x], h => by simp at h
  | x :: y :: rest, h => by
    obtain ⟨r, hr⟩ := oddsE_ok rest (by simp at h; omega)
    exact ⟨y :: r, by simp [oddsE, hr, Except.map]⟩

theorem geometry_ok_of_even (t : ShapeType) (pts : List ℚ) (h : pts.length % 2 = 0) :
    ∃ r, geometry t pts = Except.ok r := by
  cases t
  case rectangle =>
    rcases pts with _ | ⟨a, _ | ⟨b, _ | ⟨c, _ | ⟨d, rest⟩⟩⟩⟩ <;> exact ⟨_, rfl⟩
  case polygon =>
    by_cases h6 : 6 ≤ pts.length
    · obtain ⟨r, hr⟩ := pairUpE_ok pts h
      exact ⟨(Polygon.to_bbox ⟨r⟩, some ⟨r⟩), by simp [geometry, h6, hr]⟩
    · exact ⟨(none, none), by simp [geometry, h6]⟩
  case polyline =>
    by_cases h4 : 4 ≤ pts.length
    · obtain ⟨r, hr⟩ := pairUpE_ok pts h
      exact ⟨(Polygon.to_bbox ⟨r⟩, some ⟨r⟩), by simp [geometry, h4, hr]⟩
    · exact ⟨(none, none), by simp [geometry, h4]⟩
  case points =>
    by_cases h2 : 2 ≤ pts.length
    · obtain ⟨r, hr⟩ := oddsE_ok pts h
      exact ⟨(extentBox (evens pts) r, none), by simp [geometry, h2, hr]⟩
    · exact ⟨(none, none), by simp [geometry, h2]⟩
  case ellipse =>
    rcases pts with _ | ⟨a, _ | ⟨b, _ | ⟨c, _ | ⟨d, rest⟩⟩⟩⟩
    · exact ⟨_, rfl⟩
    · exact ⟨_, rfl⟩
    · exact ⟨_, rfl⟩
    · exact ⟨_, rfl⟩
    · by_cases he : rest.isEmpty
      · exact ⟨(some ⟨pyInt (a - c), pyInt (b - d), pyInt (2 * c), pyInt (2 * d)⟩, none),
          by simp [geometry, he]⟩
      · exact ⟨(some ⟨pyInt (min a c), pyInt (min b d),
                      pyInt (max a c - min a c), pyInt (max b d - min b d)⟩, none),
          by simp [geometry, he]⟩
  case cuboid =>
    by_cases h4 : 4 ≤ pts.length
    · exact ⟨(extentBox (evens pts) (oddsSafe pts), none), by simp [geometry, h4]⟩
    · exact ⟨(none, none), by simp [geometry, h4]⟩
  case skeleton =>
    by_cases h4 : 4 ≤ pts.length
    · exact ⟨(extentBox (evens pts) (oddsSafe pts), none), by simp [geometry, h4]⟩
    · exact ⟨(none, none), by simp [geometry, h4]⟩
  case mask =>
    by_cases h4 : 4 ≤ pts.length
    · exact ⟨(extentBox (evens pts) (oddsSafe pts), none), by simp [geometry, h4]⟩
    · exact ⟨(none, none), by simp [geometry, h4]⟩

theorem mem_intRange {a b f : ℤ} : f ∈ intRange a b ↔ a ≤ f ∧ f ≤ b := by
  simp only [intRange, List.mem_map, List.mem_range]
  constructor
  · rintro ⟨k, hk, rfl⟩
    omega
  · rintro ⟨h1, h2⟩
    exact ⟨(f - a).toNat, by omega, by omega⟩

theorem intRange_nodup (a b : ℤ) : (intRange a b).Nodup := by
  refine List.Nodup.map ?_ (List.nodup_range _)
  intro i j hij
  simp only [add_right_inj, Nat.cast_inj] at hij
  exact hij

theorem intRange_pairwise (a b : ℤ) : (intRange a b).Pairwise (· < ·) := by
  unfold intRange
  rw [List.pairwise_map]
  exact (List.pairwise_lt_range _).imp (fun h => by omega)

theorem length_intRange (a b : ℤ) : (intRange a b).length = (b + 1 - a).toNat := by
  simp [intRange]

theorem length_filter_pos_neg {α : Type} (l : List α) (p : α → Bool) :
    (l.filter p).length + (l.filter (fun x => !(p x))).length = l.length := by
  induction l with
  | nil => simp
  | cons a t ih =>
    cases h : p a <;> (simp [List.filter_cons, h]; omega)

theorem length_filter_mem (rng del : List ℤ) (hr : rng.Nodup) (hd : del.Nodup)
    (hsub : ∀ f ∈ del, f ∈ rng) :
    (rng.filter (fun f => decide (f ∈ del))).length = del.length := by
  have h1 : (rng.filter (fun f => decide (f ∈ del))).Nodup := hr.filter _
  have h2 : (rng.filter (fun f => decide (f ∈ del))).toFinset = del.toFinset := by
    ext x
    simp only [List.mem_toFinset, List.mem_filter, decide_eq_true_iff]
    exact ⟨fun h => h.2, fun h => ⟨hsub x h, h⟩⟩
  calc (rng.filter (fun f => decide (f ∈ del))).length
      = (rng.filter (fun f => decide (f ∈ del))).toFinset.card :=
        (List.toFinset_card_of_nodup h1).symm
    _ = del.toFinset.card := by rw [h2]
    _ = del.length := List.toFinset_card_of_nodup hd

theorem iter_frames_count (env : CVATEnv) (jid : ℤ)
    (hnd : (env.getMeta jid).deleted_frames.Nodup)
    (hin : ∀ f ∈ (env.getMeta jid).deleted_frames,
      (env.getJob jid).start_frame ≤ f ∧ f ≤ (env.getJob jid).stop_frame)
    (hrange : (env.getJob jid).start_frame ≤ (env.getJob jid).stop_frame + 1) :
    ((iter_frames env jid).length : ℤ) =
      (env.getJob jid).stop_frame - (env.getJob jid).start_frame + 1
        - ((env.getMeta jid).deleted_frames.length : ℤ) := by
  set a := (env.getJob jid).start_frame
  set b := (env.getJob jid).stop_frame
  set del := (env.getMeta jid).deleted_frames
  have hlen : (iter_frames env jid).length =
      ((intRange a b).filter (fun fid => decide (fid ∉ del))).length := by
    simp [iter_frames]
  have hneg : ((intRange a b).filter (fun fid => decide (fid ∉ del))) =
      ((intRange a b).filter (fun fid => !(decide (fid ∈ del)))) := by
    simp
  have hsplit := length_filter_pos_neg (intRange a b) (fun fid => decide (fid ∈ del))
  have hmem : ((intRange a b).filter (fun f => decide (f ∈ del))).length = del.length :=
    length_filter_mem _ _ (intRange_nodup a b) hnd
      (fun f hf => mem_intRange.mpr (hin f hf))
  have hrng : (intRange a b).length = (b + 1 - a).toNat := length_intRange a b
  rw [hlen, hneg]
  omega

theorem foldl_if_append {α β : Type} (p : α → Bool) (f : α → List β) (l : List α) :
    ∀ acc : List β,
      l.foldl (fun a x => if p x then a ++ f x else a) acc = acc ++ (l.filter p).flatMap f := by
  induction l with
  | nil => intro acc; simp
  | cons a t ih =>
    intro acc
    cases h : p a <;> simp [List.filter_cons, h, ih]

theorem foldl_if_add {α : Type} (p : α → Bool) (g : α → ℤ) (l : List α) :
    ∀ acc : ℤ,
      l.foldl (fun a x => if p x then a + g x else a) acc = acc + ((l.filter p).map g).sum := by
  induction l with
  | nil => intro acc; simp
  | cons a t ih =>
    intro acc
    cases h : p a <;> (simp [List.filter_cons, h, ih]; try ring)

theorem sum_int_eq_sum_nat {α : Type} (l : List α) (g : α → ℤ) (h : α → ℕ)
    (hgh : ∀ x ∈ l, g x = (h x : ℤ)) :
    (l.map g).sum = ((l.map h).sum : ℤ) := by
  induction l with
  | nil => simp
  | cons a t ih =>
    simp only [List.map_cons, List.sum_cons, Nat.cast_add]
    rw [hgh a (List.mem_cons_self a t), ih (fun x hx => hgh x (List.mem_cons_of_mem a hx))]

theorem getLastD_mem {α : Type} : ∀ (l : List α) (d : α), l ≠ [] → l.getLastD d ∈ l
  | [], _, h => absurd rfl h
  | [a], _, _ => by simp
  | a :: b :: t, d, _ => by
    have := getLastD_mem (b :: t) d (by simp)
    simp only [List.getLastD_cons] at this ⊢
    exact List.mem_cons_of_mem a this

theorem batchLoop_nil (N : ℤ) (batch : List FrameData) :
    batchLoop N [] batch = ([], batch) := rfl

theorem batchLoop_cons (N : ℤ) (fd : FrameData) (rest batch : List FrameData) :
    batchLoop N (fd :: rest) batch =
      if N ≤ ((batch ++ [fd]).length : ℤ) then
        ((batch ++ [fd]) :: (batchLoop N rest []).1, (batchLoop N rest []).2)
      else batchLoop N rest (batch ++ [fd]) := rfl

theorem batchLoop_spec (N : ℕ) (hN : 1 ≤ N) :
    ∀ (l batch : List FrameData), batch.length < N →
      (batchLoop (N : ℤ) l batch).1.length = (batch.length + l.length) / N
      ∧ (∀ c ∈ (batchLoop (N : ℤ) l batch).1, c.length = N)
      ∧ (batchLoop (N : ℤ) l batch).2.length = (batch.length + l.length) % N := by
  intro l
  induction l with
  | nil =>
    intro batch hb
    rw [batchLoop_nil]
    refine ⟨?_, by simp, ?_⟩
    · simp [Nat.div_eq_of_lt (by simpa using hb)]
    · simp [Nat.mod_eq_of_lt (by simpa using hb)]
  | cons fd rest ih =>
    intro batch hb
    rw [batchLoop_cons]
    by_cases hfull : (N : ℤ) ≤ ((batch ++ [fd]).length : ℤ)
    · have hlen : (batch ++ [fd]).length = N := by
        simp only [List.length_append, List.length_cons, List.length_nil,
          Nat.cast_add, Nat.cast_one] at hfull ⊢
        omega
      obtain ⟨ih1, ih2, ih3⟩ := ih [] (by simpa using hN)
      rw [if_pos hfull]
      have harith : batch.length + (rest.length + 1) = rest.length + N := by
        simp only [List.length_append, List.length_cons, List.length_nil] at hlen
        omega
      refine ⟨?_, ?_, ?_⟩
      · simp only [List.length_cons, ih1, List.length_nil, Nat.zero_add]
        rw [harith, Nat.add_div_right _ (by omega)]
      · intro c hc
        rcases List.mem_cons.mp hc with hc1 | hc2
        · rw [hc1]; exact hlen
        · exact ih2 c hc2
      · simp only [List.length_cons, ih3, List.length_nil, Nat.zero_add]
        rw [harith, Nat.add_mod_right]
    · have hlt : (batch ++ [fd]).length < N := by
        simp only [List.length_append, List.length_cons, List.length_nil,
          Nat.cast_add, Nat.cast_one] at hfull ⊢
        omega
      obtain ⟨ih1, ih2, ih3⟩ := ih (batch ++ [fd]) hlt
      rw [if_neg hfull]
      have harith : (batch ++ [fd]).length + rest.length = batch.length + (fd :: rest).length := by
        simp only [List.length_append, List.length_cons, List.length_nil]
        omega
      exact ⟨by rw [ih1, harith], ih2, by rw [ih3, harith]⟩

theorem batchLoop_join (N : ℤ) :
    ∀ (l batch : List FrameData),
      (batchLoop N l batch).1.flatten ++ (batchLoop N l batch).2 = batch ++ l := by
  intro l
  induction l with
  | nil => intro batch; rw [batchLoop_nil]; simp
  | cons fd rest ih =>
    intro batch
    rw [batchLoop_cons]
    by_cases hfull : (N : ℤ) ≤ ((batch ++ [fd]).length : ℤ)
    · rw [if_pos hfull]
      simp only [List.flatten_cons, List.append_assoc]
      rw [ih []]
      simp
    · rw [if_neg hfull, ih (batch ++ [fd])]
      simp

theorem ceil_div_eq (M N : ℕ) (hN : 1 ≤ N) :
    (M + N - 1) / N = M / N + (if M % N = 0 then 0 else 1) := by
  by_cases hM : M = 0
  · subst hM
    simp [Nat.div_eq_of_lt (show N - 1 < N by omega)]
  · have h1 : M + N - 1 = (M - 1) + N := by omega
    rw [h1, Nat.add_div_right _ (by omega)]
    have hsd := Nat.succ_div (M - 1) N
    have hM1 : M - 1 + 1 = M := by omega
    rw [hM1] at hsd
    by_cases hz : M % N = 0
    · have hdvd : N ∣ M := Nat.dvd_of_mod_eq_zero hz
      rw [if_pos hdvd] at hsd
      rw [if_pos hz]
      omega
    · rw [if_neg (fun hd => hz (Nat.mod_eq_zero_of_dvd hd))] at hsd
      rw [if_neg hz]
      omega

theorem paginate_spec {α : Type} (fetch : Option String → CursorPage α) :
    ∀ (n : ℕ) (c : Option String) (fuel : ℕ),
      (∀ k, k < n → (fetch (chainFrom fetch c k)).has_next = true) →
      (fetch (chainFrom fetch c n)).has_next = false →
      n < fuel →
      paginate fetch fuel c =
        ((List.range (n + 1)).map (fun k => (fetch (chainFrom fetch c k)).items)).flatten := by
  intro n
  induction n with
  | zero =>
    intro c fuel _ h2 hfuel
    obtain ⟨m, rfl⟩ : ∃ m, fuel = m + 1 := ⟨fuel - 1, by omega⟩
    have hc : chainFrom fetch c 0 = c := rfl
    rw [hc] at h2
    simp [paginate, h2, List.range_succ, chainFrom]
  | succ n ih =>
    intro c fuel h1 h2 hfuel
    obtain ⟨m, rfl⟩ : ∃ m, fuel = m + 1 := ⟨fuel - 1, by omega⟩
    have hc0 : (fetch c).has_next = true := h1 0 (by omega)
    have hshift : ∀ k, chainFrom fetch c (k + 1) =
        chainFrom fetch (pyOrStr (fetch c).cursor (fetch c).next_page) k := fun k => rfl
    have ihm := ih (pyOrStr (fetch c).cursor (fetch c).next_page) m
      (fun k hk => by rw [← hshift k]; exact h1 (k + 1) (by omega))
      (by rw [← hshift n]; exact h2)
      (by omega)
    show (fetch c).items ++ _ = _
    rw [if_pos hc0, ihm]
    have hsplit : ((List.range (n + 1 + 1)).map
          (fun k => (fetch (chainFrom fetch c k)).items)).flatten =
        (fetch (chainFrom fetch c 0)).items ++
          ((List.range (n + 1)).map
            (fun k => (fetch (chainFrom fetch c (k + 1))).items)).flatten := by
      rw [List.range_succ_eq_map]
      simp [List.map_map, Function.comp_def]
    rw [hsplit]
    rfl

theorem pyInt_eq_zero_neg {q : ℚ} (h0 : -1 < q) (h1 : q < 0) : pyInt q = 0 := by
  unfold pyInt
  rw [if_neg (not_le.mpr h1)]
  exact Int.ceil_eq_zero_iff.mpr ⟨h0, le_of_lt h1⟩

theorem stl_rect (x1 y1 x2 y2 : ℚ) (rest : List ℚ) (attrs : List AttrDict)
    (lid : Option ℤ) (cl : List CVATLabel) (sc : ℚ) :
    shape_to_label ⟨"rectangle", x1 :: y1 :: x2 :: y2 :: rest, attrs, lid⟩ cl sc =
      Except.ok
        { label := resolveLabelName lid cl
          score := sc
          bbox := ⟨pyInt (min x1 x2), pyInt (min y1 y2),
                   pyInt (max x1 x2 - min x1 x2), pyInt (max y1 y2 - min y1 y2)⟩
          polygon := none
          attributes := resolveAttrs attrs (labelAttrs lid cl) } := rfl

theorem stl_rect_short (pts : List ℚ) (h : pts.length < 4) (attrs : List AttrDict)
    (lid : Option ℤ) (cl : List CVATLabel) (sc : ℚ) :
    shape_to_label ⟨"rectangle", pts, attrs, lid⟩ cl sc =
      Except.ok
        { label := resolveLabelName lid cl
          score := sc
          bbox := ⟨0, 0, 1, 1⟩
          polygon := none
          attributes := resolveAttrs attrs (labelAttrs lid cl) } := by
  rcases pts with _ | ⟨a, _ | ⟨b, _ | ⟨c, _ | ⟨d, r⟩⟩⟩⟩
  · rfl
  · rfl
  · rfl
  · rfl
  · simp at h; omega

theorem stl_ellipse4 (cx cy rx ry : ℚ) (attrs : List AttrDict)
    (lid : Option ℤ) (cl : List CVATLabel) (sc : ℚ) :
    shape_to_label ⟨"ellipse", [cx, cy, rx, ry], attrs, lid⟩ cl sc =
      Except.ok
        { label := resolveLabelName lid cl
          score := sc
          bbox := ⟨pyInt (cx - rx), pyInt (cy - ry), pyInt (2 * rx), pyInt (2 * ry)⟩
          polygon := none
          attributes := resolveAttrs attrs (labelAttrs lid cl) } := rfl

theorem stl_ellipse_more (x1 y1 x2 y2 x5 : ℚ) (rest : List ℚ) (attrs : List AttrDict)
    (lid : Option ℤ) (cl : List CVATLabel) (sc : ℚ) :
    shape_to_label ⟨"ellipse", x1 :: y1 :: x2 :: y2 :: x5 :: rest, attrs, lid⟩ cl sc =
      Except.ok
        { label := resolveLabelName lid cl
          score := sc
          bbox := ⟨pyInt (min x1 x2), pyInt (min y1 y2),
                   pyInt (max x1 x2 - min x1 x2), pyInt (max y1 y2 - min y1 y2)⟩
          polygon := none
          attributes := resolveAttrs attrs (labelAttrs lid cl) } := rfl

theorem stl_ellipse_short (pts : List ℚ) (h : pts.length < 4) (attrs : List AttrDict)
    (lid : Option ℤ) (cl : List CVATLabel) (sc : ℚ) :
    shape_to_label ⟨"ellipse", pts, attrs, lid⟩ cl sc =
      Except.ok
        { label := resolveLabelName lid cl
          score := sc
          bbox := ⟨0, 0, 1, 1⟩
          polygon := none
          attributes := resolveAttrs attrs (labelAttrs lid cl) } := by
  rcases pts with _ | ⟨a, _ | ⟨b, _ | ⟨c, _ | ⟨d, r⟩⟩⟩⟩
  · rfl
  · rfl
  · rfl
  · rfl
  · simp at h; omega

theorem stl_points4 (a b c d : ℚ) (attrs : List AttrDict)
    (lid : Option ℤ) (cl : List CVATLabel) (sc : ℚ) :
    shape_to_label ⟨"points", [a, b, c, d], attrs, lid⟩ cl sc =
      Except.ok
        { label := resolveLabelName lid cl
          score := sc
          bbox := ⟨pyInt (min a c), pyInt (min b d),
                   if min a c < max a c then pyInt (max a c - min a c) else 1,
                   if min b d < max b d then pyInt (max b d - min b d) else 1⟩
          polygon := none
          attributes := resolveAttrs attrs (labelAttrs lid cl) } := rfl

/-! Claim C2. -/

/-- C2 counterexample: `shape_to_label` is not total on arbitrary type
strings and coordinate lists — the dict path raises `ValueError` on an
unrecognized type string ("triangle"), and the polygon branch raises
`IndexError` on an odd-length coordinate list of length ≥ 6. -/
theorem c2_counterexample :
    shape_to_label ⟨"triangle", [], [], none⟩ [] 1 = Except.error ()
    ∧ shape_to_label ⟨"polygon", [0, 0, 1, 0, 2, 2, 3], [], none⟩ [] 1 = Except.error () :=
  ⟨rfl, rfl⟩

/-- C2 (amended): for every shape whose type string is a recognized CVAT
shape type and whose coordinate list has even length, `shape_to_label`
never raises and returns a label whose bounding box is the unit fallback
`x=0, y=0, width=1, height=1` whenever no geometry branch produced a box. -/
theorem c2_theorem (s : RawShape) (cl : List CVATLabel) (sc : ℚ) (t : ShapeType)
    (h1 : ShapeType.ofString s.type = some t) (h2 : s.points.length % 2 = 0) :
    ∃ l, shape_to_label s cl sc = Except.ok l ∧
      (∀ p, geometry t s.points = Except.ok (none, p) → l.bbox = ⟨0, 0, 1, 1⟩) := by
  obtain ⟨bp, hg⟩ := geometry_ok_of_even t s.points h2
  refine ⟨{ label := resolveLabelName s.label_id cl
            score := sc
            bbox := bp.1.getD ⟨0, 0, 1, 1⟩
            polygon := bp.2
            attributes := resolveAttrs s.attributes (labelAttrs s.label_id cl) }, ?_, ?_⟩
  · simp only [shape_to_label, h1, hg]
  · intro p hp
    rw [hg] at hp
    have hfst : bp.1 = none := by
      have := congrArg Prod.fst (Except.ok.inj hp)
      simpa using this
    simp [hfst]

/-- C2 witness: a recognized type ("mask") with an empty (even-length)
coordinate list converts successfully to the fallback unit box. -/
theorem c2_witness :
    ShapeType.ofString "mask" = some ShapeType.mask
    ∧ ([] : List ℚ).length % 2 = 0
    ∧ (∃ l, shape_to_label ⟨"mask", [], [], none⟩ [] 1 = Except.ok l ∧
        (∀ p, geometry ShapeType.mask [] = Except.ok (none, p) → l.bbox = ⟨0, 0, 1, 1⟩)) :=
  ⟨rfl, rfl, c2_theorem ⟨"mask", [], [], none⟩ [] 1 ShapeType.mask rfl rfl⟩

/-! Claim C5. -/

/-- The C5 claim, as stated, at one rectangle input: the box coordinates
equal the exact rational min/extent values. -/
def C5Claim (x1 y1 x2 y2 : ℚ) : Prop :=
  ∀ l, shape_to_label ⟨"rectangle", [x1, y1, x2, y2], [], none⟩ [] 1 = Except.ok l →
    ((l.bbox.x : ℚ) = min x1 x2 ∧ (l.bbox.y : ℚ) = min y1 y2 ∧
     (l.bbox.width : ℚ) = |x2 - x1| ∧ (l.bbox.height : ℚ) = |y2 - y1|)

/-- C5 counterexample: at the rectangle `[1/2, 0, 3/2, 1]` the code's box
has `x = int(1/2) = 0`, not `min(x1, x2) = 1/2` — the coordinates are
truncated by `int()`, so the exact equalities of the claim fail. -/
theorem c5_counterexample : ¬ C5Claim (1/2) 0 (3/2) 1 := by
  intro h
  obtain ⟨hx, -⟩ := h _ (stl_rect (1/2) 0 (3/2) 1 [] [] none [] 1)
  have hmin : min (1/2 : ℚ) (3/2) = 1/2 := by norm_num
  rw [hmin, pyInt_eq_zero (by norm_num) (by norm_num)] at hx
  norm_num at hx

/-- C5 (amended): for rectangles with ≥ 4 coordinates the box is the
min/extent box with every component truncated by `int()`
(`x = int(min x1 x2)` etc.), regardless of corner order; with fewer than
4 coordinates the unit fallback box applies. -/
theorem c5_theorem :
    (∀ (x1 y1 x2 y2 : ℚ) (rest : List ℚ) (attrs : List AttrDict) (lid : Option ℤ)
        (cl : List CVATLabel) (sc : ℚ),
      ∃ l, shape_to_label ⟨"rectangle", x1 :: y1 :: x2 :: y2 :: rest, attrs, lid⟩ cl sc =
          Except.ok l ∧
        l.bbox = ⟨pyInt (min x1 x2), pyInt (min y1 y2), pyInt |x2 - x1|, pyInt |y2 - y1|⟩)
    ∧ (∀ (pts : List ℚ) (attrs : List AttrDict) (lid : Option ℤ)
        (cl : List CVATLabel) (sc : ℚ), pts.length < 4 →
      ∃ l, shape_to_label ⟨"rectangle", pts, attrs, lid⟩ cl sc = Except.ok l ∧
        l.bbox = ⟨0, 0, 1, 1⟩) := by
  constructor
  · intro x1 y1 x2 y2 rest attrs lid cl sc
    refine ⟨_, stl_rect x1 y1 x2 y2 rest attrs lid cl sc, ?_⟩
    have hx : max x1 x2 - min x1 x2 = |x2 - x1| := by
      rw [max_sub_min_eq_abs, abs_sub_comm]
    have hy : max y1 y2 - min y1 y2 = |y2 - y1| := by
      rw [max_sub_min_eq_abs, abs_sub_comm]
    rw [hx, hy]
  · intro pts attrs lid cl sc h
    exact ⟨_, stl_rect_short pts h attrs lid cl sc, rfl⟩

/-- C5 witness: both parts at concrete inputs — the integer rectangle
`[0, 0, 2, 2]` and the empty coordinate list. -/
theorem c5_witness :
    ([] : List ℚ).length < 4
    ∧ (∃ l, shape_to_label ⟨"rectangle", [], [], none⟩ [] 1 = Except.ok l ∧
        l.bbox = ⟨0, 0, 1, 1⟩)
    ∧ (∃ l, shape_to_label ⟨"rectangle", [0, 0, 2, 2], [], none⟩ [] 1 = Except.ok l ∧
        l.bbox = ⟨pyInt (min 0 2), pyInt (min 0 2), pyInt |2 - 0|, pyInt |2 - 0|⟩) :=
  ⟨by norm_num, c5_theorem.2 [] [] none [] 1 (by norm_num),
   c5_theorem.1 0 0 2 2 [] [] none [] 1⟩

/-! Claim C6. -/

/-- The C6 claim, as stated, at one 4-coordinate ellipse input: the box
equals the exact center-radius values. -/
def C6Claim (cx cy rx ry : ℚ) : Prop :=
  ∀ l, shape_to_label ⟨"ellipse", [cx, cy, rx, ry], [], none⟩ [] 1 = Except.ok l →
    ((l.bbox.x : ℚ) = cx - rx ∧ (l.bbox.y : ℚ) = cy - ry ∧
     (l.bbox.width : ℚ) = 2 * rx ∧ (l.bbox.height : ℚ) = 2 * ry)

/-- C6 counterexample: at the ellipse `[0, 0, 1/2, 1/2]` the code's box
has `x = int(-1/2) = 0`, not `cx - rx = -1/2` (the `int()` truncation is
missing from the claim); moreover an ellipse with fewer than 4
coordinates (`[1, 2, 3]`) is not "interpreted as a bounding rectangle"
but falls back to the unit box. -/
theorem c6_counterexample :
    ¬ C6Claim 0 0 (1/2) (1/2)
    ∧ shape_to_label ⟨"ellipse", [1, 2, 3], [], none⟩ [] 1 =
        Except.ok ⟨"label_None", 1, ⟨0, 0, 1, 1⟩, none, []⟩ := by
  constructor
  · intro h
    obtain ⟨hx, -⟩ := h _ (stl_ellipse4 0 0 (1/2) (1/2) [] none [] 1)
    have harg : (0 : ℚ) - 1/2 = -(1/2) := by norm_num
    rw [harg, pyInt_eq_zero_neg (by norm_num) (by norm_num)] at hx
    norm_num at hx
  · rfl

/-- C6 (amended): an exactly-4-coordinate ellipse `(cx, cy, rx, ry)`
yields the center-radius box with every component truncated by `int()`;
more than 4 coordinates are interpreted as a bounding rectangle
`(x1, y1, x2, y2)` (min/extent box, truncated); fewer than 4 coordinates
yield the fallback unit box; `[100, 100, 20, 10]` yields exactly
`{x:80, y:90, width:40, height:20}`. -/
theorem c6_theorem :
    (∀ (cx cy rx ry : ℚ) (attrs : List AttrDict) (lid : Option ℤ)
        (cl : List CVATLabel) (sc : ℚ),
      ∃ l, shape_to_label ⟨"ellipse", [cx, cy, rx, ry], attrs, lid⟩ cl sc = Except.ok l ∧
        l.bbox = ⟨pyInt (cx - rx), pyInt (cy - ry), pyInt (2 * rx), pyInt (2 * ry)⟩)
    ∧ (∀ (x1 y1 x2 y2 x5 : ℚ) (rest : List ℚ) (attrs : List AttrDict) (lid : Option ℤ)
        (cl : List CVATLabel) (sc : ℚ),
      ∃ l, shape_to_label ⟨"ellipse", x1 :: y1 :: x2 :: y2 :: x5 :: rest, attrs, lid⟩ cl sc =
          Except.ok l ∧
        l.bbox = ⟨pyInt (min x1 x2), pyInt (min y1 y2),
                  pyInt (max x1 x2 - min x1 x2), pyInt (max y1 y2 - min y1 y2)⟩)
    ∧ (∀ (pts : List ℚ) (attrs : List AttrDict) (lid : Option ℤ)
        (cl : List CVATLabel) (sc : ℚ), pts.length < 4 →
      ∃ l, shape_to_label ⟨"ellipse", pts, attrs, lid⟩ cl sc = Except.ok l ∧
        l.bbox = ⟨0, 0, 1, 1⟩)
    ∧ (∃ l, shape_to_label ⟨"ellipse", [100, 100, 20, 10], [], none⟩ [] 1 = Except.ok l ∧
        l.bbox = ⟨80, 90, 40, 20⟩) := by
  refine ⟨?_, ?_, ?_, ?_⟩
  · intro cx cy rx ry attrs lid cl sc
    exact ⟨_, stl_ellipse4 cx cy rx ry attrs lid cl sc, rfl⟩
  · intro x1 y1 x2 y2 x5 rest attrs lid cl sc
    exact ⟨_, stl_ellipse_more x1 y1 x2 y2 x5 rest attrs lid cl sc, rfl⟩
  · intro pts attrs lid cl sc h
    exact ⟨_, stl_ellipse_short pts h attrs lid cl sc, rfl⟩
  · refine ⟨_, stl_ellipse4 100 100 20 10 [] none [] 1, ?_⟩
    have e1 : pyInt ((100 : ℚ) - 20) = 80 := by
      have : (100 : ℚ) - 20 = ((80 : ℤ) : ℚ) := by norm_num
      rw [this, pyInt_intCast]
    have e2 : pyInt ((100 : ℚ) - 10) = 90 := by
      have : (100 : ℚ) - 10 = ((90 : ℤ) : ℚ) := by norm_num
      rw [this, pyInt_intCast]
    have e3 : pyInt ((2 : ℚ) * 20) = 40 := by
      have : (2 : ℚ) * 20 = ((40 : ℤ) : ℚ) := by norm_num
      rw [this, pyInt_intCast]
    have e4 : pyInt ((2 : ℚ) * 10) = 20 := by
      have : (2 : ℚ) * 10 = ((20 : ℤ) : ℚ) := by norm_num
      rw [this, pyInt_intCast]
    rw [e1, e2, e3, e4]

/-- C6 witness: the short-list hypothesis discharged at the empty list,
plus the concrete `[100, 100, 20, 10]` scenario. -/
theorem c6_witness :
    ([] : List ℚ).length < 4
    ∧ (∃ l, shape_to_label ⟨"ellipse", [], [], none⟩ [] 1 = Except.ok l ∧
        l.bbox = ⟨0, 0, 1, 1⟩)
    ∧ (∃ l, shape_to_label ⟨"ellipse", [100, 100, 20, 10], [], none⟩ [] 1 = Except.ok l ∧
        l.bbox = ⟨80, 90, 40, 20⟩) :=
  ⟨by norm_num, c6_theorem.2.2.1 [] [] none [] 1 (by norm_num), c6_theorem.2.2.2⟩

/-! Claim C10. -/

/-- The final conjunct of claim C10, as stated: a points-derived box can
never be zero-sized. -/
def C10PointsClaim : Prop :=
  ∀ (pts : List ℚ) (attrs : List AttrDict) (lid : Option ℤ)
      (cl : List CVATLabel) (sc : ℚ) (l : Label),
    shape_to_label ⟨"points", pts, attrs, lid⟩ cl sc = Except.ok l →
      l.bbox.width ≠ 0 ∧ l.bbox.height ≠ 0

/-- C10 counterexample: the points shape `[0, 0, 1/2, 0]` has x-extent
`1/2 > 0`, so the floor-to-1 branch is not taken and the width truncates
to `int(1/2) = 0` — a points-derived box can be zero-sized. -/
theorem c10_counterexample : ¬ C10PointsClaim := by
  intro h
  have h0 := h [0, 0, 1/2, 0] [] none [] 1 _ (stl_points4 0 0 (1/2) 0 [] none [] 1)
  apply h0.1
  show (if min (0:ℚ) (1/2) < max (0:ℚ) (1/2) then pyInt (max (0:ℚ) (1/2) - min (0:ℚ) (1/2))
        else 1) = 0
  have hmin : min (0:ℚ) (1/2) = 0 := by norm_num
  have hmax : max (0:ℚ) (1/2) = 1/2 := by norm_num
  rw [hmin, hmax, if_pos (by norm_num)]
  have harg : (1/2 : ℚ) - 0 = 1/2 := by norm_num
  rw [harg]
  exact pyInt_eq_zero (by norm_num) (by norm_num)

/-- C10 (amended): every derived coordinate/extent is truncated by
`int()`: a rectangle's width/height are `int(|x2-x1|)`/`int(|y2-y1|)`,
zero as soon as the extent is below 1; an ellipse box can be zero-sized
(`[0,0,0,0]`); in the points branch the floor to 1 applies only when the
extent is exactly degenerate (two identical points give a 1×1 box), and a
points box can still be zero-sized when an extent lies strictly between
0 and 1. -/
theorem c10_theorem :
    (∀ (x1 y1 x2 y2 : ℚ) (rest : List ℚ) (attrs : List AttrDict) (lid : Option ℤ)
        (cl : List CVATLabel) (sc : ℚ),
      ∃ l, shape_to_label ⟨"rectangle", x1 :: y1 :: x2 :: y2 :: rest, attrs, lid⟩ cl sc =
          Except.ok l ∧
        l.bbox.width = pyInt |x2 - x1| ∧ l.bbox.height = pyInt |y2 - y1| ∧
        (|x2 - x1| < 1 → l.bbox.width = 0) ∧ (|y2 - y1| < 1 → l.bbox.height = 0))
    ∧ (∃ l, shape_to_label ⟨"ellipse", [0, 0, 0, 0], [], none⟩ [] 1 = Except.ok l ∧
        l.bbox.width = 0 ∧ l.bbox.height = 0)
    ∧ (∀ (x y : ℚ) (attrs : List AttrDict) (lid : Option ℤ)
        (cl : List CVATLabel) (sc : ℚ),
      ∃ l, shape_to_label ⟨"points", [x, y, x, y], attrs, lid⟩ cl sc = Except.ok l ∧
        l.bbox.width = 1 ∧ l.bbox.height = 1)
    ∧ (∃ l, shape_to_label ⟨"points", [0, 0, 1/2, 0], [], none⟩ [] 1 = Except.ok l ∧
        l.bbox.width = 0) := by
  refine ⟨?_, ?_, ?_, ?_⟩
  · intro x1 y1 x2 y2 rest attrs lid cl sc
    refine ⟨_, stl_rect x1 y1 x2 y2 rest attrs lid cl sc, ?_, ?_, ?_, ?_⟩
    · show pyInt (max x1 x2 - min x1 x2) = pyInt |x2 - x1|
      rw [max_sub_min_eq_abs, abs_sub_comm]
    · show pyInt (max y1 y2 - min y1 y2) = pyInt |y2 - y1|
      rw [max_sub_min_eq_abs, abs_sub_comm]
    · intro hlt
      show pyInt (max x1 x2 - min x1 x2) = 0
      rw [max_sub_min_eq_abs]
      exact pyInt_eq_zero (abs_nonneg _) hlt
    · intro hlt
      show pyInt (max y1 y2 - min y1 y2) = 0
      rw [max_sub_min_eq_abs]
      exact pyInt_eq_zero (abs_nonneg _) hlt
  · refine ⟨_, stl_ellipse4 0 0 0 0 [] none [] 1, ?_, ?_⟩
    · show pyInt ((2 : ℚ) * 0) = 0
      have : (2 : ℚ) * 0 = ((0 : ℤ) : ℚ) := by norm_num
      rw [this, pyInt_intCast]
    · show pyInt ((2 : ℚ) * 0) = 0
      have : (2 : ℚ) * 0 = ((0 : ℤ) : ℚ) := by norm_num
      rw [this, pyInt_intCast]
  · intro x y attrs lid cl sc
    refine ⟨_, stl_points4 x y x y attrs lid cl sc, ?_, ?_⟩
    · show (if min x x < max x x then pyInt (max x x - min x x) else 1) = 1
      rw [min_self, max_self, if_neg (lt_irrefl x)]
    · show (if min y y < max y y then pyInt (max y y - min y y) else 1) = 1
      rw [min_self, max_self, if_neg (lt_irrefl y)]
  · refine ⟨_, stl_points4 0 0 (1/2) 0 [] none [] 1, ?_⟩
    show (if min (0:ℚ) (1/2) < max (0:ℚ) (1/2) then pyInt (max (0:ℚ) (1/2) - min (0:ℚ) (1/2))
          else 1) = 0
    have hmin : min (0:ℚ) (1/2) = 0 := by norm_num
    have hmax : max (0:ℚ) (1/2) = 1/2 := by norm_num
    rw [hmin, hmax, if_pos (by norm_num)]
    have harg : (1/2 : ℚ) - 0 = 1/2 := by norm_num
    rw [harg]
    exact pyInt_eq_zero (by norm_num) (by norm_num)

/-- C10 witness: the rectangle part applied at `[0, 0, 1/2, 1]`, with the
sub-unit-width hypothesis discharged concretely. -/
theorem c10_witness :
    |(1/2 : ℚ) - 0| < 1
    ∧ (∃ l, shape_to_label ⟨"rectangle", [0, 0, 1/2, 1], [], none⟩ [] 1 = Except.ok l ∧
        l.bbox.width = 0) := by
  refine ⟨by rw [abs_of_nonneg (by norm_num : (0:ℚ) ≤ 1/2 - 0)]; norm_num, ?_⟩
  obtain ⟨l, hok, -, -, hw, -⟩ := c10_theorem.1 0 0 (1/2) 1 [] [] none [] 1
  exact ⟨l, hok, hw (by rw [abs_of_nonneg (by norm_num : (0:ℚ) ≤ 1/2 - 0)]; norm_num)⟩

/-! Claim C4. -/

/-- C4 (confirmed): `iter_frames` never yields a deleted frame, its frame
ids are strictly ascending, and every yielded id lies in the job's
inclusive `[start_frame, stop_frame]` range. -/
theorem c4_theorem (env : CVATEnv) (jid : ℤ) :
    (∀ f ∈ (iter_frames env jid).map (fun fi => fi.frame_id),
        f ∉ (env.getMeta jid).deleted_frames)
    ∧ ((iter_frames env jid).map (fun fi => fi.frame_id)).Pairwise (· < ·)
    ∧ (∀ f ∈ (iter_frames env jid).map (fun fi => fi.frame_id),
        (env.getJob jid).start_frame ≤ f ∧ f ≤ (env.getJob jid).stop_frame) := by
  have hids : (iter_frames env jid).map (fun fi => fi.frame_id) =
      (intRange (env.getJob jid).start_frame (env.getJob jid).stop_frame).filter
        (fun fid => decide (fid ∉ (env.getMeta jid).deleted_frames)) := by
    simp [iter_frames, Function.comp_def]
  rw [hids]
  refine ⟨?_, ?_, ?_⟩
  · intro f hf
    have := (List.mem_filter.mp hf).2
    simpa using this
  · exact (intRange_pairwise _ _).sublist (List.filter_sublist _)
  · intro f hf
    exact mem_intRange.mp (List.mem_filter.mp hf).1

/-- A one-job environment: job 0 covers frames 0..1, frame 1 deleted. -/
def c4env : CVATEnv :=
  { jobSummaries := [⟨0, 0, 0, 1⟩]
    getJob := fun _ => ⟨0, 0, 1⟩
    getMeta := fun _ => ⟨0, 1, [1]⟩
    shapes := fun _ => []
    taskLabels := []
    frameData := fun _ _ => 0
    imageW := fun _ _ => 0
    imageH := fun _ _ => 0
    predict := fun _ _ => [] }

/-- C4 witness: in `c4env`, frame 0 is yielded and is indeed not deleted
and inside the job range. -/
theorem c4_witness :
    (0 : ℤ) ∈ (iter_frames c4env 0).map (fun fi => fi.frame_id)
    ∧ (0 : ℤ) ∉ (c4env.getMeta 0).deleted_frames
    ∧ ((c4env.getJob 0).start_frame ≤ 0 ∧ (0 : ℤ) ≤ (c4env.getJob 0).stop_frame) :=
  ⟨by decide, (c4_theorem c4env 0).1 0 (by decide), (c4_theorem c4env 0).2.2 0 (by decide)⟩

/-! Claim C7. -/

/-- C7 (confirmed): in `get_annotations`, each frame's label list is
exactly the successful conversions (in order) of that frame's shapes —
conversions that raise are skipped shape-by-shape, and every shape whose
conversion succeeds is included even when a sibling shape of the same
frame fails. -/
theorem c7_theorem (env : CVATEnv) (jid : ℤ) (cl : List CVATLabel) :
    ∀ fl ∈ get_annotations env jid cl,
      fl.labels = ((env.shapes jid).filter (fun s => decide (s.frame = fl.frame_id))).filterMap
          (fun s => (shape_to_label s.toRaw cl 1).toOption)
      ∧ (∀ s ∈ env.shapes jid, s.frame = fl.frame_id →
          ∀ l, shape_to_label s.toRaw cl 1 = Except.ok l → l ∈ fl.labels) := by
  intro fl hfl
  obtain ⟨fid, hfid, rfl⟩ := List.mem_map.mp hfl
  refine ⟨rfl, ?_⟩
  intro s hs hfr l hl
  apply List.mem_filterMap.mpr
  refine ⟨s, List.mem_filter.mpr ⟨hs, by simpa using hfr⟩, ?_⟩
  rw [hl]
  rfl

/-- A one-job environment whose only shape (an empty-points rectangle on
frame 5) converts to the fallback label. -/
def c7env : CVATEnv :=
  { jobSummaries := [⟨0, 0, 0, 9⟩]
    getJob := fun _ => ⟨0, 0, 9⟩
    getMeta := fun _ => ⟨0, 9, []⟩
    shapes := fun _ => [⟨ShapeType.rectangle, 5, 7, [], []⟩]
    taskLabels := []
    frameData := fun _ _ => 0
    imageW := fun _ _ => 0
    imageH := fun _ _ => 0
    predict := fun _ _ => [] }

/-- The frame record `get_annotations` produces in `c7env`. -/
def c7fl : FrameLabels :=
  ⟨5, 0, [⟨"label_7", 1, ⟨0, 0, 1, 1⟩, none, []⟩]⟩

/-- C7 witness: the computed `FrameLabels` of `c7env` satisfies the
per-frame conversion property, and its one shape's label is included. -/
theorem c7_witness :
    c7fl ∈ get_annotations c7env 0 []
    ∧ (c7fl.labels =
        ((c7env.shapes 0).filter (fun s => decide (s.frame = c7fl.frame_id))).filterMap
          (fun s => (shape_to_label s.toRaw [] 1).toOption)
       ∧ (∀ s ∈ c7env.shapes 0, s.frame = c7fl.frame_id →
          ∀ l, shape_to_label s.toRaw [] 1 = Except.ok l → l ∈ c7fl.labels)) :=
  ⟨by decide, c7_theorem c7env 0 [] c7fl (by decide)⟩

/-! Claim C8. -/

/-- An environment with no jobs at all: the smallest complete run. -/
def c8env : CVATEnv :=
  { jobSummaries := []
    getJob := fun _ => ⟨0, 0, 0⟩
    getMeta := fun _ => ⟨0, 0, []⟩
    shapes := fun _ => []
    taskLabels := []
    frameData := fun _ _ => 0
    imageW := fun _ _ => 0
    imageH := fun _ _ => 0
    predict := fun _ _ => [] }

/-- C8 counterexample: a complete `run_and_submit` run closes neither the
DataUp client nor the CVAT client — no `close()` call appears in the
effect trace (the method has no `finally`, and its `except` clause only
re-raises). -/
theorem c8_counterexample :
    ¬ (RunnerEffect.closeClient ClientKind.dataup ∈ run_and_submit c8env none 10
       ∧ RunnerEffect.closeClient ClientKind.cvat ∈ run_and_submit c8env none 10) := by
  decide

/-- C8 (amended): `run_and_submit` never releases either caller-supplied
connection object, on any run; the clients expose `close()` (and context
manager support), but invoking it is left entirely to the caller. -/
theorem c8_theorem (env : CVATEnv) (jobFilter : Option (List ℤ)) (N : ℤ) :
    (run_and_submit env jobFilter N).countP isClose = 0 := by
  have hmap : ∀ L : List (List FrameData),
      (L.map RunnerEffect.ingest).countP isClose = 0 := by
    intro L
    induction L with
    | nil => rfl
    | cons c t ih => simp [isClose, ih]
  simp [run_and_submit, List.countP_cons, List.countP_append, isClose, hmap]

/-! Claim C9. -/

/-- C9 (confirmed): whenever the cursor chain reaches, after `n` steps, a
first page with neither continuation token nor next-page URL, `paginate`
(with any sufficient fuel for the unbounded loop) yields exactly the
concatenation of the fetched pages' items in order — each item exactly
once — starting from the null cursor and threading each page's
continuation token into the next fetch. -/
theorem c9_theorem {α : Type} (fetch : Option String → CursorPage α) (n fuel : ℕ)
    (h1 : ∀ k, k < n → (fetch (chainFrom fetch none k)).has_next = true)
    (h2 : (fetch (chainFrom fetch none n)).has_next = false)
    (hfuel : n < fuel) :
    paginate fetch fuel none =
      ((List.range (n + 1)).map (fun k => (fetch (chainFrom fetch none k)).items)).flatten :=
  paginate_spec fetch n none fuel h1 h2 hfuel

/-- A two-page fetch function: the first page carries cursor "a", the
second page ends the chain. -/
def c9fetch : Option String → CursorPage ℕ :=
  fun c =>
    match c with
    | none => ⟨[1, 2], none, none, some "a", none⟩
    | some s => if s = "a" then ⟨[3], none, none, none, none⟩ else ⟨[], none, none, none, none⟩

/-- C9 witness: on the two-page `c9fetch`, the hypotheses hold with
`n = 1` and the drained items are `[1, 2] ++ [3]`. -/
theorem c9_witness :
    (∀ k, k < 1 → (c9fetch (chainFrom c9fetch none k)).has_next = true)
    ∧ (c9fetch (chainFrom c9fetch none 1)).has_next = false
    ∧ 1 < 2
    ∧ paginate c9fetch 2 none =
        ((List.range 2).map (fun k => (c9fetch (chainFrom c9fetch none k)).items)).flatten :=
  ⟨by decide, by decide, by decide, c9_theorem c9fetch 1 2 (by decide) (by decide) (by decide)⟩

/-! Claim C1. -/

theorem firstPass_eq_sum (env : CVATEnv) (jf : Option (List ℤ)) :
    firstPassTotal env jf =
      (((iterJobsWithAnn env).filter (fun p => inScope jf p.1.id)).map
        (fun p => (env.getJob p.1.id).stop_frame - (env.getJob p.1.id).start_frame + 1
                  - ((env.getMeta p.1.id).deleted_frames.length : ℤ))).sum := by
  unfold firstPassTotal
  rw [foldl_if_add (fun p => inScope jf p.1.id)
    (fun p => (env.getJob p.1.id).stop_frame - (env.getJob p.1.id).start_frame + 1
              - ((env.getMeta p.1.id).deleted_frames.length : ℤ))
    (iterJobsWithAnn env) 0]
  simp

theorem secondPass_eq (env : CVATEnv) (jf : Option (List ℤ)) :
    secondPassRecords env jf =
      ((iterJobsWithAnn env).filter (fun p => inScope jf p.1.id)).flatMap
        (fun p => jobRecords env p.1 p.2) := by
  unfold secondPassRecords
  rw [foldl_if_append (fun p => inScope jf p.1.id)
    (fun p => jobRecords env p.1 p.2) (iterJobsWithAnn env) []]
  simp

theorem ingestCalls_flatten (env : CVATEnv) (jf : Option (List ℤ)) (N : ℤ) :
    (ingestCalls env jf N).flatten = secondPassRecords env jf := by
  have hjoin := batchLoop_join N (secondPassRecords env jf) []
  simp only [List.nil_append] at hjoin
  show ((batchLoop N (secondPassRecords env jf) []).1
      ++ (if (batchLoop N (secondPassRecords env jf) []).2.isEmpty then []
          else [(batchLoop N (secondPassRecords env jf) []).2])).flatten = _
  by_cases he : (batchLoop N (secondPassRecords env jf) []).2.isEmpty
  · have he' : (batchLoop N (secondPassRecords env jf) []).2 = [] := by simpa using he
    rw [he', List.append_nil] at hjoin
    rw [if_pos he, List.append_nil]
    exact hjoin
  · rw [if_neg he, List.flatten_append]
    simpa using hjoin

/-- The in-scope-jobs hypothesis of claim C1: every in-scope job's
deleted-frame list is duplicate-free and contained in the job's
`[start_frame, stop_frame]` range. -/
def C1Hyp (env : CVATEnv) (jf : Option (List ℤ)) : Prop :=
  ∀ s ∈ env.jobSummaries, inScope jf s.id = true →
    ((env.getMeta s.id).deleted_frames.Nodup ∧
     ∀ f ∈ (env.getMeta s.id).deleted_frames,
       (env.getJob s.id).start_frame ≤ f ∧ f ≤ (env.getJob s.id).stop_frame)

/-- The extra hypothesis the counterexample forces: in-scope job ranges
are not negatively degenerate (`start_frame ≤ stop_frame + 1`). -/
def C1Range (env : CVATEnv) (jf : Option (List ℤ)) : Prop :=
  ∀ s ∈ env.jobSummaries, inScope jf s.id = true →
    (env.getJob s.id).start_frame ≤ (env.getJob s.id).stop_frame + 1

/-- A one-job environment with an inverted frame range
(`start_frame = 0`, `stop_frame = -2`) and an empty deleted list. -/
def c1env : CVATEnv :=
  { jobSummaries := [⟨1, 0, 0, 0⟩]
    getJob := fun _ => ⟨1, 0, -2⟩
    getMeta := fun _ => ⟨0, 0, []⟩
    shapes := fun _ => []
    taskLabels := []
    frameData := fun _ _ => 0
    imageW := fun _ _ => 0
    imageH := fun _ _ => 0
    predict := fun _ _ => [] }

/-- C1 counterexample: with an inverted job range the claim's hypotheses
(duplicate-free, contained deleted lists) hold vacuously, yet the first
pass computes `stop - start + 1 - 0 = -1` while the second pass submits
0 frames. -/
theorem c1_counterexample :
    C1Hyp c1env none
    ∧ firstPassTotal c1env none ≠ ((secondPassRecords c1env none).length : ℤ) := by
  constructor
  · unfold C1Hyp
    decide
  · decide

/-- C1 (amended): for every task whose in-scope jobs have duplicate-free
deleted-frame lists contained in their ranges, and whose ranges are not
negatively degenerate, and for any job-id filter, the first-pass total
equals the number of frame records appended in the second pass, and the
ingestion calls submit exactly those records. -/
theorem c1_theorem (env : CVATEnv) (jobFilter : Option (List ℤ))
    (h : C1Hyp env jobFilter) (hr : C1Range env jobFilter) :
    firstPassTotal env jobFilter = ((secondPassRecords env jobFilter).length : ℤ)
    ∧ ∀ N : ℤ, (ingestCalls env jobFilter N).flatten = secondPassRecords env jobFilter := by
  refine ⟨?_, fun N => ingestCalls_flatten env jobFilter N⟩
  rw [firstPass_eq_sum, secondPass_eq, List.length_flatMap]
  apply sum_int_eq_sum_nat
  intro p hp
  obtain ⟨hmem, hscope⟩ := List.mem_filter.mp hp
  obtain ⟨s, hs, rfl⟩ := List.mem_map.mp hmem
  have hscope' : inScope jobFilter s.id = true := by simpa using hscope
  obtain ⟨hnd, hin⟩ := h s hs hscope'
  have hcount := iter_frames_count env s.id hnd hin (hr s hs hscope')
  simpa [jobRecords] using hcount.symm

/-- A healthy one-job environment: frames 0..2, frame 1 deleted. -/
def c1wenv : CVATEnv :=
  { jobSummaries := [⟨0, 0, 0, 2⟩]
    getJob := fun _ => ⟨0, 0, 2⟩
    getMeta := fun _ => ⟨0, 2, [1]⟩
    shapes := fun _ => []
    taskLabels := []
    frameData := fun _ _ => 0
    imageW := fun _ _ => 0
    imageH := fun _ _ => 0
    predict := fun _ _ => [] }

/-- C1 witness: on `c1wenv` the hypotheses hold and the two passes agree. -/
theorem c1_witness :
    C1Hyp c1wenv none ∧ C1Range c1wenv none
    ∧ (firstPassTotal c1wenv none = ((secondPassRecords c1wenv none).length : ℤ)
       ∧ ∀ N : ℤ, (ingestCalls c1wenv none N).flatten = secondPassRecords c1wenv none) :=
  ⟨by unfold C1Hyp; decide, by unfold C1Range; decide,
   c1_theorem c1wenv none (by unfold C1Hyp; decide) (by unfold C1Range; decide)⟩

/-! Claim C3. -/

/-- C3 (confirmed): with `batch_size = N ≥ 1` and `M` processed frames
and no error, the runner issues exactly `⌈M / N⌉` ingestion calls, all
but possibly the last of size exactly `N`, the last of size `M mod N`
(or `N` when `N ∣ M`, `M > 0`); `M = 0` issues no ingestion call, and
the finalize call happens exactly once in every run. -/
theorem c3_theorem (env : CVATEnv) (jobFilter : Option (List ℤ)) (N : ℕ) (hN : 1 ≤ N) :
    (ingestCalls env jobFilter (N : ℤ)).length =
      ((secondPassRecords env jobFilter).length + N - 1) / N
    ∧ (∀ c ∈ (ingestCalls env jobFilter (N : ℤ)).dropLast, c.length = N)
    ∧ ((secondPassRecords env jobFilter).length ≠ 0 →
        ((ingestCalls env jobFilter (N : ℤ)).getLastD []).length =
          if (secondPassRecords env jobFilter).length % N = 0 then N
          else (secondPassRecords env jobFilter).length % N)
    ∧ ((secondPassRecords env jobFilter).length = 0 →
        ingestCalls env jobFilter (N : ℤ) = [])
    ∧ (run_and_submit env jobFilter (N : ℤ)).countP isFinalize = 1 := by
  have hfin : (run_and_submit env jobFilter (N : ℤ)).countP isFinalize = 1 := by
    have hmap : ∀ L : List (List FrameData),
        (L.map RunnerEffect.ingest).countP isFinalize = 0 := by
      intro L
      induction L with
      | nil => rfl
      | cons c t ih => simp [isFinalize, ih]
    simp [run_and_submit, List.countP_cons, List.countP_append, isFinalize, hmap]
  obtain ⟨h1, h2, h3⟩ := batchLoop_spec N hN (secondPassRecords env jobFilter) []
    (by simpa using hN)
  simp only [List.length_nil, Nat.zero_add] at h1 h3
  have hic : ingestCalls env jobFilter (N : ℤ) =
      (batchLoop (N : ℤ) (secondPassRecords env jobFilter) []).1
        ++ (if (batchLoop (N : ℤ) (secondPassRecords env jobFilter) []).2.isEmpty then []
            else [(batchLoop (N : ℤ) (secondPassRecords env jobFilter) []).2]) := rfl
  by_cases he : (batchLoop (N : ℤ) (secondPassRecords env jobFilter) []).2.isEmpty
  · have he' : (batchLoop (N : ℤ) (secondPassRecords env jobFilter) []).2 = [] := by
      simpa using he
    have hmod : (secondPassRecords env jobFilter).length % N = 0 := by
      rw [← h3, he']
      rfl
    have hcalls : ingestCalls env jobFilter (N : ℤ) =
        (batchLoop (N : ℤ) (secondPassRecords env jobFilter) []).1 := by
      rw [hic, if_pos he, List.append_nil]
    refine ⟨?_, ?_, ?_, ?_, hfin⟩
    · rw [hcalls, h1, ceil_div_eq _ _ hN, if_pos hmod]
      omega
    · intro c hc
      rw [hcalls] at hc
      exact h2 c ((List.dropLast_sublist _).subset hc)
    · intro hMne
      rw [hcalls, if_pos hmod]
      have hdvd : N ∣ (secondPassRecords env jobFilter).length :=
        Nat.dvd_of_mod_eq_zero hmod
      have hge : 1 ≤ (secondPassRecords env jobFilter).length / N :=
        (Nat.one_le_div_iff (by omega)).mpr (Nat.le_of_dvd (by omega) hdvd)
      have hne : (batchLoop (N : ℤ) (secondPassRecords env jobFilter) []).1 ≠ [] := by
        intro hnil
        rw [hnil] at h1
        simp at h1
        omega
      exact h2 _ (getLastD_mem _ [] hne)
    · intro hM0
      rw [hcalls]
      rw [hM0] at h1
      simp only [Nat.zero_div] at h1
      exact List.length_eq_zero.mp h1
  · have hremne : (batchLoop (N : ℤ) (secondPassRecords env jobFilter) []).2 ≠ [] := by
      simpa using he
    have hmodne : (secondPassRecords env jobFilter).length % N ≠ 0 := by
      rw [← h3]
      simpa using hremne
    have hcalls : ingestCalls env jobFilter (N : ℤ) =
        (batchLoop (N : ℤ) (secondPassRecords env jobFilter) []).1
          ++ [(batchLoop (N : ℤ) (secondPassRecords env jobFilter) []).2] := by
      rw [hic, if_neg he]
    refine ⟨?_, ?_, ?_, ?_, hfin⟩
    · rw [hcalls, List.length_append, h1, ceil_div_eq _ _ hN, if_neg hmodne]
      rfl
    · intro c hc
      rw [hcalls, List.dropLast_concat] at hc
      exact h2 c hc
    · intro hMne
      rw [hcalls, List.getLastD_concat, h3, if_neg hmodne]
    · intro hM0
      exact absurd (by rw [hM0, Nat.zero_mod]) hmodne

/-- A one-job environment with three frames (0..2) and nothing deleted. -/
def c3env : CVATEnv :=
  { jobSummaries := [⟨0, 0, 0, 2⟩]
    getJob := fun _ => ⟨0, 0, 2⟩
    getMeta := fun _ => ⟨0, 2, []⟩
    shapes := fun _ => []
    taskLabels := []
    frameData := fun _ _ => 0
    imageW := fun _ _ => 0
    imageH := fun _ _ => 0
    predict := fun _ _ => [] }

/-- C3 witness: `M = 3` frames with `batch_size = 2` give `⌈3/2⌉ = 2`
ingestion calls. -/
theorem c3_witness :
    1 ≤ 2
    ∧ (ingestCalls c3env none (2 : ℤ)).length =
        ((secondPassRecords c3env none).length + 2 - 1) / 2 :=
  ⟨by decide, (c3_theorem c3env none 2 (by decide)).1⟩

end Dataup
